import Mathlib

/-!
Verification of the haematocrit phase-separation engine and its convergence
driver (microBlooM, `source/bloodflowmodel/discharge_haematocrit.py` and
`source/bloodflowmodel/iterative.py`).

The Python code computes with IEEE floats; the embedding idealises the
scalar type as the real numbers.  Divisions that would raise
ZeroDivisionError in Python are total in the model (`x / 0 = 0`); every
theorem about a claim either excludes those inputs through its hypotheses or
is insensitive to the convention, as noted at each definition.

The per-iteration diagnostic lists (`fractional_a_qRBCs`, plot buffers, ...)
that the Python functions append to are consumed only by excluded plotting
collaborators; the embedding models the numeric outputs and omits those
appends.
-/

noncomputable section

/-- Calibration constant `x_o_init = 1.12` from `DischargeHaematocrit.__init__`. -/
def x_o_init : ℝ := 1.12

/-- Calibration constant `A_o_init = 15.47` from `DischargeHaematocrit.__init__`. -/
def A_o_init : ℝ := 15.47

/-- Calibration constant `B_o_init = 8.13` from `DischargeHaematocrit.__init__`. -/
def B_o_init : ℝ := 8.13

/-- The module-level `_logit(x) = log(x / (1 - x))`. -/
def logit' (x : ℝ) : ℝ := Real.log (x / (1 - x))

/-- `non_dimentional_param`: the non-dimensional parameters `(x_0, A, B)`
computed from the parent haematocrit and the three diameters (metres,
converted to micrometres by the `1E6` factor). -/
def non_dimentional_param (hemat_par diam_par diam_a diam_b : ℝ) : ℝ × ℝ × ℝ :=
  let da := diam_a * 1e6
  let db := diam_b * 1e6
  let dp := diam_par * 1e6
  (x_o_init * (1 - hemat_par) / dp,
   (-A_o_init) * ((da ^ 2 - db ^ 2) / (da ^ 2 + db ^ 2)) * (1 - hemat_par) / dp,
   1 + B_o_init * (1 - hemat_par) / dp)

/-- The three-region split law of `get_erythrocyte_fraction`: the pair
`(fractional_qRBCa, fractional_qRBCb)` as a function of the fractional flow
`flow_a / (flow_a + flow_b)` and the non-dimensional parameters.  In the
middle region the code computes `e ** logit_result / (1 + e ** logit_result)`,
which is `Real.exp logit_result / (1 + Real.exp logit_result)`. -/
def fractional_qRBC (hemat_par diam_par diam_a diam_b flow_a flow_b : ℝ) : ℝ × ℝ :=
  let ffa := flow_a / (flow_a + flow_b)
  let x0 := (non_dimentional_param hemat_par diam_par diam_a diam_b).1
  let A := (non_dimentional_param hemat_par diam_par diam_a diam_b).2.1
  let B := (non_dimentional_param hemat_par diam_par diam_a diam_b).2.2
  if ffa ≤ x0 then (0, 1)
  else if ffa < 1 - x0 then
    let lr := A + B * logit' ((ffa - x0) / (1 - x0))
    (Real.exp lr / (1 + Real.exp lr), 1 - Real.exp lr / (1 + Real.exp lr))
  else (1, 0)

/-- The "to avoid Nan" guard of `get_erythrocyte_fraction`: haematocrit pair
before the saturation clamp.  `fq` is the fractional-share pair. -/
def hemat_guard (hemat_par flow_parent flow_a flow_b : ℝ) (fq : ℝ × ℝ) : ℝ × ℝ :=
  let qRBCp := hemat_par * flow_parent
  if flow_a < 1e-36 then (0, fq.2 * qRBCp / flow_b)
  else if flow_b < 1e-36 then (fq.1 * qRBCp / flow_a, 0)
  else (fq.1 * qRBCp / flow_a, fq.2 * qRBCp / flow_b)

/-- The saturation clamp of `get_erythrocyte_fraction` (threshold `0.99`):
if `hemat_b ≥ 0.99` the surplus RBC share moves to daughter a and both
haematocrits are recomputed from the adjusted shares; `elif hemat_a ≥ 0.99`
symmetrically.  `fq` are the shares from the split law, `h` the pair after
the division guard. -/
def hemat_clamp (hemat_par flow_parent flow_a flow_b : ℝ) (fq h : ℝ × ℝ) : ℝ × ℝ :=
  let qRBCp := hemat_par * flow_parent
  if 0.99 ≤ h.2 then
    let s := (h.2 - 0.99) * flow_b / qRBCp
    ((fq.1 + s) * qRBCp / flow_a, (fq.2 - s) * qRBCp / flow_b)
  else if 0.99 ≤ h.1 then
    let s := (h.1 - 0.99) * flow_a / qRBCp
    ((fq.1 - s) * qRBCp / flow_a, (fq.2 + s) * qRBCp / flow_b)
  else h

/-- `get_erythrocyte_fraction` up to (and including) the saturation clamp:
the pair `(hemat_a, hemat_b)` that the final fatal guard inspects. -/
def get_erythrocyte_fraction_post (hemat_par diam_par diam_a diam_b flow_parent flow_a flow_b :
    ℝ) : ℝ × ℝ :=
  let fq := fractional_qRBC hemat_par diam_par diam_a diam_b flow_a flow_b
  hemat_clamp hemat_par flow_parent flow_a flow_b fq
    (hemat_guard hemat_par flow_parent flow_a flow_b fq)

/-- `get_erythrocyte_fraction`: `none` models the `sys.exit()` taken when
`hemat_a >= 1 or hemat_b >= 1` after the clamp; otherwise the function
returns the clamped pair. -/
def get_erythrocyte_fraction (hemat_par diam_par diam_a diam_b flow_parent flow_a flow_b :
    ℝ) : Option (ℝ × ℝ) :=
  let h := get_erythrocyte_fraction_post hemat_par diam_par diam_a diam_b flow_parent flow_a flow_b
  if 1 ≤ h.1 ∨ 1 ≤ h.2 then none else some h

/-- `DischargeHaematocritPries1990.qRCS`: the mass-balance checker.  Each of
the five shapes first compares the volumetric flows, then the RBC fluxes
(`q * Hdt`), both with absolute tolerance `1.00E-05`; the result is `0`
(balanced) or `1`.  Argument slots that a shape does not read are `None` in
Python and arbitrary here (call sites pass `0`).  An unmatched `case` value
leaves `RBCbalance = 1`. -/
def qRCS (c : ℕ) (flow_a_par flow_b_par flow_c_par flow_a_d flow_b_d flow_c_d
    hemat_a_par hemat_b_par hemat_c_par hemat_a_d hemat_b_d hemat_c_d : ℝ) : ℕ :=
  let tol : ℝ := 1e-5
  match c with
  | 1 =>
    if |flow_a_par - flow_a_d| ≤ tol then
      if |flow_a_par * hemat_a_par - flow_a_d * hemat_a_d| ≤ tol then 0 else 1
    else 1
  | 2 =>
    if |flow_a_par - (flow_a_d + flow_b_d)| ≤ tol then
      if |flow_a_par * hemat_a_par - (flow_a_d * hemat_a_d + flow_b_d * hemat_b_d)| ≤ tol then 0
      else 1
    else 1
  | 3 =>
    if |flow_a_par - (flow_a_d + flow_b_d + flow_c_d)| ≤ tol then
      if |flow_a_par * hemat_a_par -
          (flow_a_d * hemat_a_d + flow_b_d * hemat_b_d + flow_c_d * hemat_c_d)| ≤ tol then 0
      else 1
    else 1
  | 4 =>
    if |flow_a_par + flow_b_par - flow_a_d| ≤ tol then
      if |flow_a_par * hemat_a_par + flow_b_par * hemat_b_par - flow_a_d * hemat_a_d| ≤ tol then 0
      else 1
    else 1
  | 5 =>
    if |flow_a_par + flow_b_par + flow_c_par - flow_a_d| ≤ tol then
      if |flow_a_par * hemat_a_par + flow_b_par * hemat_b_par + flow_c_par * hemat_c_par -
          flow_a_d * hemat_a_d| ≤ tol then 0
      else 1
    else 1
  | _ => 1

/-- `hematocrit_1_1`: single parent, single daughter — the haematocrit is
passed through unchanged and the shape-1 balance check accumulates. -/
def hematocrit_1_1 (hemat_parent flow_parent flow_daughter : ℝ) (rbc_balance : ℕ) : ℝ × ℕ :=
  (hemat_parent,
   rbc_balance + qRCS 1 flow_parent 0 0 flow_daughter 0 0 hemat_parent 0 0 hemat_parent 0 0)

/-- `hematocrit_1_3`: one parent, three daughters — all three daughters get
the parent haematocrit and the shape-3 check accumulates.  The
`fractional_trifurc_*` diagnostic appends are omitted (they would divide by
`qRBC_parent`, raising in Python when it is zero; no claim exercises that). -/
def hematocrit_1_3 (flow_parent hemat_parent flow_daughter_a flow_daughter_b flow_daughter_c :
    ℝ) (rbc_balance : ℕ) : ℝ × ℝ × ℝ × ℕ :=
  (hemat_parent, hemat_parent, hemat_parent,
   rbc_balance + qRCS 3 flow_parent 0 0 flow_daughter_a flow_daughter_b flow_daughter_c
     hemat_parent 0 0 hemat_parent hemat_parent hemat_parent)

/-- `hematocrit_2_1`: two parents, one daughter — flow-weighted average of
the parent haematocrits, with the shape-4 check. -/
def hematocrit_2_1 (flow_parent_a flow_parent_b flow_daughter hemat_parent_a hemat_parent_b :
    ℝ) (rbc_balance : ℕ) : ℝ × ℕ :=
  let hematocrit := (flow_parent_a * hemat_parent_a + flow_parent_b * hemat_parent_b) /
    (flow_parent_a + flow_parent_b)
  (hematocrit,
   rbc_balance + qRCS 4 flow_parent_a flow_parent_b 0 flow_daughter 0 0
     hemat_parent_a hemat_parent_b 0 hematocrit 0 0)

/-- `hematocrit_2_2_aux`: aggregates two parents into one ghost parent:
mean diameter, summed flow, flow-weighted haematocrit. -/
def hematocrit_2_2_aux (hemat_a hemat_b flow_a flow_b diameter_a diameter_b : ℝ) : ℝ × ℝ × ℝ :=
  ((diameter_a + diameter_b) / 2, flow_a + flow_b,
   (flow_a * hemat_a + flow_b * hemat_b) / (flow_a + flow_b))

/-- `hematocrit_1_2`: one parent, two daughters — the phase-separation law
followed by the shape-2 check.  `none` propagates the `sys.exit()` of
`get_erythrocyte_fraction`. -/
def hematocrit_1_2 (flow_parent hemat_parent flow_daughter_a flow_daughter_b : ℝ)
    (rbc_balance : ℕ) (diameter_parent diameter_a diameter_b : ℝ) : Option (ℝ × ℝ × ℕ) :=
  match get_erythrocyte_fraction hemat_parent diameter_parent diameter_a diameter_b
      flow_parent flow_daughter_a flow_daughter_b with
  | none => none
  | some (hematocrit_a, hematocrit_b) =>
    some (hematocrit_a, hematocrit_b,
      rbc_balance + qRCS 2 flow_parent 0 0 flow_daughter_a flow_daughter_b 0
        hemat_parent 0 0 hematocrit_a hematocrit_b 0)

/-- `hematocrit_3_1`: three parents, one daughter — flow-weighted average,
with the shape-5 check. -/
def hematocrit_3_1 (flow_parent_a flow_parent_b flow_parent_c flow_daughter
    hemat_parent_a hemat_parent_b hemat_parent_c : ℝ) (rbc_balance : ℕ) : ℝ × ℕ :=
  let hematocrit := (flow_parent_a * hemat_parent_a + flow_parent_b * hemat_parent_b +
    flow_parent_c * hemat_parent_c) / (flow_parent_a + flow_parent_b + flow_parent_c)
  (hematocrit,
   rbc_balance + qRCS 5 flow_parent_a flow_parent_b flow_parent_c flow_daughter 0 0
     hemat_parent_a hemat_parent_b hemat_parent_c hematocrit 0 0)

/-- The inputs `update_hd` reads from the flow-network container: edge list,
per-edge diameter, signed flow rate, per-node pressure, boundary node ids,
their prescribed boundary haematocrit, and the current (stale) discharge
haematocrit array. -/
structure FlowNet where
  edge_list : List (ℕ × ℕ)
  diameter : List ℝ
  flow_rate : List ℝ
  pressure : List ℝ
  boundary_vs : List ℕ
  boundary_hematocrit : List ℝ
  hd : List ℝ

/-- Ascending comparison on `(pressure, original index)` pairs.  Sorting by
this total lexicographic order models NumPy's `argsort` on the pressure
column: entries with equal pressure keep ascending original-index order. -/
def pairLe (a b : ℝ × ℕ) : Prop := a.1 < b.1 ∨ (a.1 = b.1 ∧ a.2 ≤ b.2)

instance pairLe.dec (a b : ℝ × ℕ) : Decidable (pairLe a b) := by
  unfold pairLe; infer_instance

/-- Ordered insertion for the ascending sort. -/
def insertAsc (x : ℝ × ℕ) : List (ℝ × ℕ) → List (ℝ × ℕ)
  | [] => [x]
  | h :: t => if pairLe h x then h :: insertAsc x t else x :: h :: t

/-- Insertion sort, ascending in `pairLe`. -/
def sortAsc : List (ℝ × ℕ) → List (ℝ × ℕ)
  | [] => []
  | x :: xs => insertAsc x (sortAsc xs)

/-- The `[pressure, node]` rows built by the loop at lines 371-372. -/
def pressure_pairs (p : List ℝ) : List (ℝ × ℕ) := p.enum.map (fun x => (x.2, x.1))

/-- Lines 374-376: `pressure_node[pressure_node[:, 0].argsort()[::-1]]`
projected to the node column — ascending argsort, then reversed. -/
def ordered_node (p : List ℝ) : List ℕ := ((sortAsc (pressure_pairs p)).map Prod.snd).reverse

/-- Lines 389-398: the incident edges of node `n`, as
`(position in edge_list, endpoint pair)`, in edge-list order. -/
def edge_connected_enum (el : List (ℕ × ℕ)) (n : ℕ) : List (ℕ × (ℕ × ℕ)) :=
  el.enum.filter (fun x => x.2.1 = n || x.2.2 = n)

/-- Lines 401-416: scanning the pressure-ordered node list, every node `on`
encountered strictly before `n` marks all incident edges having `on` as an
endpoint as parent edges; the scan stops at `n`. -/
def parent_edge_scan (ec : List (ℕ × (ℕ × ℕ))) (n : ℕ) : List ℕ → List ℕ
  | [] => []
  | onode :: rest =>
    if onode = n then []
    else ((ec.filter (fun pe => pe.2.1 = onode || pe.2.2 = onode)).map Prod.fst) ++
      parent_edge_scan ec n rest

/-- The parent-edge positions of node `n` for the given processing order. -/
def parents_of (el : List (ℕ × ℕ)) (ord : List ℕ) (n : ℕ) : List ℕ :=
  parent_edge_scan (edge_connected_enum el n) n ord

/-- Lines 405-407: the daughter edges are the incident edges that are not
parent edges, in edge-list order. -/
def daughters_of (el : List (ℕ × ℕ)) (ord : List ℕ) (n : ℕ) : List ℕ :=
  ((edge_connected_enum el n).map Prod.fst).filter (fun e => !((parents_of el ord n).contains e))

/-- Lines 420-446: both `match len(...)` blocks map a length outside
`{1, 2, 3}` to count `0`. -/
def count_collapse : ℕ → ℕ
  | 1 => 1
  | 2 => 2
  | 3 => 3
  | _ => 0

/-- The `n_parent` value the dispatch matches on. -/
def np_of (el : List (ℕ × ℕ)) (ord : List ℕ) (n : ℕ) : ℕ :=
  count_collapse (parents_of el ord n).length

/-- The `n_daughter` value the dispatch matches on. -/
def nd_of (el : List (ℕ × ℕ)) (ord : List ℕ) (n : ℕ) : ℕ :=
  count_collapse (daughters_of el ord n).length

/-- The far endpoint of an edge relative to node `n` (lines 395-398). -/
def far_endpoint (pair : ℕ × ℕ) (n : ℕ) : ℕ := if pair.1 = n then pair.2 else pair.1

/-- Mutable state carried across the node loop of one `update_hd` pass: the
haematocrit array, the accumulated RBC-imbalance count, the Python local
variables `daughter_a` / `daughter_b` (which survive from one loop iteration
to the next and can be read stale — only these two registers are ever read
before being reassigned in the same iteration), and the list of nodes for
which the `case 0, _` warning was printed. -/
structure PassState where
  hd : List ℝ
  rbc : ℕ
  da : Option ℕ
  db : Option ℕ
  warn : List ℕ

/-- One iteration of the `for node in pressure_node` loop (lines 378-659):
classification, register update, and the boundary/interior dispatch.
`Except.error ()` models abnormal termination inside the body: the
`sys.exit()` reached through `get_erythrocyte_fraction`; the `case 0, 1`
assignment of the `(hematocrit, rbc_balance)` tuple into the float
haematocrit array (a `ValueError` in NumPy); and a read of the
`daughter_a` / `daughter_b` locals before any node has assigned them (a
`NameError`).  List indexing out of range defaults to `0` here; the concrete
networks used in the theorems below stay in bounds. -/
def processNode (net : FlowNet) (ord : List ℕ) (st : PassState) (n : ℕ) :
    Except Unit PassState :=
  let parents := parents_of net.edge_list ord n
  let daughters := daughters_of net.edge_list ord n
  let np := count_collapse parents.length
  let nd := count_collapse daughters.length
  let st1 : PassState :=
    if daughters.length = 2 ∨ daughters.length = 3 then
      { st with da := some (daughters.getD 0 0), db := some (daughters.getD 1 0) }
    else st
  let fl := fun i => |net.flow_rate.getD i 0|
  let fr := fun i => net.flow_rate.getD i 0
  let dm := fun i => net.diameter.getD i 0
  let hdv := fun i => st1.hd.getD i 0
  let bh := net.boundary_hematocrit.getD (net.boundary_vs.indexOf n) 0
  let d0 := daughters.getD 0 0
  let d1 := daughters.getD 1 0
  let d2 := daughters.getD 2 0
  let p0 := parents.getD 0 0
  let p1 := parents.getD 1 0
  let p2 := parents.getD 2 0
  if n ∈ net.boundary_vs then
    match np, nd with
    | 0, 1 => .error ()
    | 1, 0 => .ok st1
    | 0, 2 =>
      let diameter_parent := (dm d0 + dm d1) / 2
      let flow_parent := fl d0 + fl d1
      match hematocrit_1_2 flow_parent bh (fl d0) (fl d1) st1.rbc diameter_parent (dm d0)
          (dm d1) with
      | none => .error ()
      | some (ha, hb, rbc) => .ok { st1 with hd := (st1.hd.set d0 ha).set d1 hb, rbc := rbc }
    | 2, 0 => .ok st1
    | 1, 1 =>
      if fr p0 < fr d0 then
        let flow_ghost := fr d0 - fr p0
        match hematocrit_2_1 (fl p0) flow_ghost (fl d0) (hdv p0) bh st1.rbc with
        | (h, rbc) => .ok { st1 with hd := st1.hd.set d0 h, rbc := rbc }
      else
        let flow_ghost := fr p0 - fr d0
        match hematocrit_1_2 (fl p0) (hdv p0) (fl d0) flow_ghost st1.rbc (dm p0) (dm d0)
            (dm d0) with
        | none => .error ()
        | some (h, _, rbc) => .ok { st1 with hd := st1.hd.set d0 h, rbc := rbc }
    | 2, 1 =>
      let flow_parents := fl p0 + fl p1
      if fl d0 > flow_parents then
        let flow_parent_ghost := fl d0 - (fl p0 + fl p1)
        match hematocrit_3_1 (fl p0) (fl p1) flow_parent_ghost (fl d0) (hdv p0) (hdv p1) bh
            st1.rbc with
        | (h, rbc) => .ok { st1 with hd := st1.hd.set d0 h, rbc := rbc }
      else
        let flow_daughter_ghost := flow_parents - fl d0
        match st1.da, st1.db with
        | some ia, some ib =>
          match hematocrit_2_2_aux (hdv p0) (hdv p1) (fl p0) (fl p1) (dm p0) (dm p1) with
          | (diameter_parent, flow_parent, hemat_parent) =>
            match hematocrit_1_2 flow_parent hemat_parent (fl ia) flow_daughter_ghost st1.rbc
                diameter_parent (dm ia) (dm ia) with
            | none => .error ()
            | some (ha, hb, rbc) =>
              .ok { st1 with hd := (st1.hd.set ia ha).set ib hb, rbc := rbc }
        | _, _ => .error ()
    | 3, 0 => .ok st1
    | 0, 3 =>
      let flow_parent_ghost := fl d0 + fl d1 + fl d2
      match hematocrit_1_3 flow_parent_ghost bh (fl d0) (fl d1) (fl d2) st1.rbc with
      | (ha, hb, hc, rbc) =>
        .ok { st1 with hd := ((st1.hd.set d0 ha).set d1 hb).set d2 hc, rbc := rbc }
    | 1, 2 =>
      let flow_daughter := fl d0 + fl d1
      if fr p0 > flow_daughter then
        let flow_ghost_daughter := fl p0 - flow_daughter
        match hematocrit_1_3 (fl p0) (hdv p0) (fl d0) (fl d1) flow_ghost_daughter st1.rbc with
        | (ha, hb, _, rbc) => .ok { st1 with hd := (st1.hd.set d0 ha).set d1 hb, rbc := rbc }
      else
        let flow_ghost := (fl d0 + fl d1) - fl p0
        match hematocrit_2_2_aux (hdv p0) bh (fl p0) flow_ghost (dm d0) (dm d0) with
        | (diameter_parent, flow_parent, hemat_parent) =>
          match hematocrit_1_2 flow_parent hemat_parent (fl d0) (fl d1) st1.rbc diameter_parent
              (dm d0) (dm d1) with
          | none => .error ()
          | some (ha, hb, rbc) =>
            .ok { st1 with hd := (st1.hd.set d0 ha).set d1 hb, rbc := rbc }
    | _, _ => .ok st1
  else
    match np, nd with
    | 1, 1 =>
      match hematocrit_1_1 (hdv p0) (fl p0) (fl d0) st1.rbc with
      | (h, rbc) => .ok { st1 with hd := st1.hd.set d0 h, rbc := rbc }
    | 1, 2 =>
      match hematocrit_1_2 (fl p0) (hdv p0) (fl d0) (fl d1) st1.rbc (dm p0) (dm d0) (dm d1) with
      | none => .error ()
      | some (ha, hb, rbc) => .ok { st1 with hd := (st1.hd.set d0 ha).set d1 hb, rbc := rbc }
    | 1, 3 =>
      match hematocrit_1_3 (fl p0) (hdv p0) (fl d0) (fl d1) (fl d2) st1.rbc with
      | (ha, hb, hc, rbc) =>
        .ok { st1 with hd := ((st1.hd.set d0 ha).set d1 hb).set d2 hc, rbc := rbc }
    | 2, 1 =>
      match hematocrit_2_1 (fl p0) (fl p1) (fl d0) (hdv p0) (hdv p1) st1.rbc with
      | (h, rbc) => .ok { st1 with hd := st1.hd.set d0 h, rbc := rbc }
    | 2, 2 =>
      match hematocrit_2_2_aux (hdv p0) (hdv p1) (fl p0) (fl p1) (dm d0) (dm d1) with
      | (diameter_parent, flow_parent, hemat_parent) =>
        match hematocrit_1_2 flow_parent hemat_parent (fl d0) (fl d1) st1.rbc diameter_parent
            (dm d0) (dm d1) with
        | none => .error ()
        | some (ha, hb, rbc) => .ok { st1 with hd := (st1.hd.set d0 ha).set d1 hb, rbc := rbc }
    | 3, 1 =>
      match hematocrit_3_1 (fl p0) (fl p1) (fl p2) (fl d0) (hdv p0) (hdv p1) (hdv p2)
          st1.rbc with
      | (h, rbc) => .ok { st1 with hd := st1.hd.set d0 h, rbc := rbc }
    | 0, _ => .ok { st1 with warn := st1.warn ++ [n] }
    | _, _ => .ok st1

/-- The node loop: process the pressure-ordered nodes left to right,
stopping at the first abnormal termination. -/
def runNodes (net : FlowNet) (ord : List ℕ) : List ℕ → PassState → Except Unit PassState
  | [], st => .ok st
  | n :: rest, st =>
    match processNode net ord st n with
    | .error e => .error e
    | .ok st' => runNodes net ord rest st'

/-- The state at the start of a pass: current haematocrit array, zero
imbalance count, unassigned registers, no warnings. -/
def initState (net : FlowNet) : PassState := ⟨net.hd, 0, none, none, []⟩

/-- Result of one `update_hd` pass: abnormal mid-pass termination, the fatal
`sys.exit` of the end-of-pass balance check, or normal completion with the
updated haematocrit array. -/
inductive PassOutcome where
  | midExit : PassOutcome
  | fatal : ℕ → PassOutcome
  | ok : List ℝ → PassOutcome
deriving DecidableEq

/-- `DischargeHaematocritPries1990.update_hd` for the case where a pressure
field is present: run the node loop in pressure order, then `sys.exit` at
lines 662-663 exactly when the accumulated `rbc_balance` is positive. -/
def update_hd (net : FlowNet) : PassOutcome :=
  match runNodes net (ordered_node net.pressure) (ordered_node net.pressure)
      (initState net) with
  | .error _ => .midExit
  | .ok st => if 0 < st.rbc then .fatal st.rbc else .ok st.hd

/-- The `(n_parent, n_daughter)` pairs that the boundary-node `match`
(lines 451-599) has a case for. -/
def boundary_handled (np nd : ℕ) : Prop :=
  (np, nd) ∈ [(0, 1), (1, 0), (0, 2), (2, 0), (1, 1), (2, 1), (3, 0), (0, 3), (1, 2)]

/-- The `(n_parent, n_daughter)` pairs that the interior-node `match`
(lines 604-659) has a case for; `(0, _)` only prints a warning. -/
def interior_handled (np nd : ℕ) : Prop :=
  (np, nd) ∈ [(1, 1), (1, 2), (1, 3), (2, 1), (2, 2), (3, 1)] ∨ np = 0

instance boundary_handled.dec (np nd : ℕ) : Decidable (boundary_handled np nd) := by
  unfold boundary_handled; infer_instance

instance interior_handled.dec (np nd : ℕ) : Decidable (interior_handled np nd) := by
  unfold interior_handled; infer_instance

/-- State of the outer convergence loop of
`IterativeRoutineMultipleIteration._iterative_method`. -/
structure LoopState where
  iteration : ℕ
  convergence_check : Bool
deriving DecidableEq

/-- One body of the `while flownetwork.convergence_check is False` loop:
increment the iteration counter, then set `convergence_check` by the checks
at lines 185-387 — converged when `iteration > 2` and the Berg residual is
at most `berg_criteria` and `iteration > 2000`, force-stopped when
`iteration == 2000`, otherwise keep running.  `residual i` is the Berg
residual computed in iteration `i` (its value comes from external
collaborators and is left abstract). -/
def loop_body (residual : ℕ → ℝ) (berg_criteria : ℝ) (s : LoopState) : LoopState :=
  let i := s.iteration + 1
  if 2 < i ∧ residual i ≤ berg_criteria ∧ 2000 < i then ⟨i, true⟩
  else if i = 2000 then ⟨i, true⟩
  else ⟨i, false⟩

/-- The loop run for `j` steps from a fresh start (`iteration = 0`,
`convergence_check = False`); once `convergence_check` is true the loop has
exited and the state no longer changes. -/
def loop_run (residual : ℕ → ℝ) (berg_criteria : ℝ) : ℕ → LoopState
  | 0 => ⟨0, false⟩
  | j + 1 =>
    let s := loop_run residual berg_criteria j
    if s.convergence_check then s else loop_body residual berg_criteria s

/-- The processing-order relation the code actually establishes: `i` comes
before `j` when `i` has strictly higher pressure, or equal pressure and
strictly larger node id (descending ids on ties). -/
def node_before (p : List ℝ) (i j : ℕ) : Prop :=
  p.getD j 0 < p.getD i 0 ∨ (p.getD i 0 = p.getD j 0 ∧ j < i)

/-- Concrete five-node network exercising the boundary `(2, 1)` outflow-ghost
branch: edges `e0=(0,1)`, `e1=(0,2)`, `e2=(1,3)`, `e3=(2,3)`, `e4=(3,4)`,
unit flows, distinct pressures `10 > 9 > 8 > 7 > 6`, boundary nodes `3, 4`.
Node `0` (interior, two daughters) assigns the `daughter_a`/`daughter_b`
registers; node `3` is the boundary `(2, 1)` node with parent-flow
surplus. -/
def netC2 : FlowNet :=
  ⟨[(0, 1), (0, 2), (1, 3), (2, 3), (3, 4)], [1e-6, 1e-6, 1e-6, 1e-6, 1e-6], [1, 1, 1, 1, 1],
   [10, 9, 8, 7, 6], [3, 4], [0.5, 0.5], [0.4, 0.4, 0.9, 0.9, 0.7]⟩

/-- Concrete two-node interior network (one edge, no boundary nodes): node 0
is interior `(0, 1)` (warned), node 1 is interior `(1, 0)` (skipped). -/
def netC8 : FlowNet :=
  ⟨[(0, 1)], [1e-6], [1], [2, 1], [], [], [0.3]⟩

/-- Concrete three-node network with an isolated boundary node `2`
(`(0, 0)` configuration, outside every handled set). -/
def netC9 : FlowNet :=
  ⟨[(0, 1)], [1e-6], [1], [3, 2, 1], [2], [0.5], [0.3]⟩

end

/-- The two fractional RBC shares of the split law always add up to `1`. -/
theorem fractional_qRBC_sum (hp dp da db fa fb : ℝ) :
    (fractional_qRBC hp dp da db fa fb).1 + (fractional_qRBC hp dp da db fa fb).2 = 1 := by
  unfold fractional_qRBC
  dsimp only
  split_ifs <;> norm_num

/-- Both fractional RBC shares lie in `[0, 1]`. -/
theorem fractional_qRBC_bounds (hp dp da db fa fb : ℝ) :
    0 ≤ (fractional_qRBC hp dp da db fa fb).1 ∧ (fractional_qRBC hp dp da db fa fb).1 ≤ 1 ∧
    0 ≤ (fractional_qRBC hp dp da db fa fb).2 ∧ (fractional_qRBC hp dp da db fa fb).2 ≤ 1 := by
  unfold fractional_qRBC
  dsimp only
  split_ifs with h1 h2
  · norm_num
  · set lr := (non_dimentional_param hp dp da db).2.1 +
      (non_dimentional_param hp dp da db).2.2 *
      logit' ((fa / (fa + fb) - (non_dimentional_param hp dp da db).1) /
        (1 - (non_dimentional_param hp dp da db).1)) with hlr
    have hpos : (0:ℝ) < 1 + Real.exp lr := by positivity
    have hle : Real.exp lr / (1 + Real.exp lr) ≤ 1 := by
      rw [div_le_one hpos]; linarith
    have hge : 0 ≤ Real.exp lr / (1 + Real.exp lr) := by positivity
    refine ⟨hge, hle, ?_, ?_⟩ <;> simp <;> linarith
  · norm_num

/-- Division guard followed by the saturation clamp conserves total RBC flux
whenever both daughter flows are at least `1e-36` and the shares sum to one. -/
theorem guard_clamp_sum (hp fp fa fb : ℝ) (fq : ℝ × ℝ) (hsum : fq.1 + fq.2 = 1)
    (hfa : (1e-36 : ℝ) ≤ fa) (hfb : (1e-36 : ℝ) ≤ fb) :
    (hemat_clamp hp fp fa fb fq (hemat_guard hp fp fa fb fq)).1 * fa +
    (hemat_clamp hp fp fa fb fq (hemat_guard hp fp fa fb fq)).2 * fb = hp * fp := by
  have hfa0 : fa ≠ 0 := by
    have : (0:ℝ) < fa := lt_of_lt_of_le (by norm_num) hfa
    exact ne_of_gt this
  have hfb0 : fb ≠ 0 := by
    have : (0:ℝ) < fb := lt_of_lt_of_le (by norm_num) hfb
    exact ne_of_gt this
  have hga : ¬ fa < 1e-36 := not_lt.2 hfa
  have hgb : ¬ fb < 1e-36 := not_lt.2 hfb
  unfold hemat_guard hemat_clamp
  rw [if_neg hga, if_neg hgb]
  dsimp only
  split_ifs with h1 h2
  · rw [div_mul_cancel₀ _ hfa0, div_mul_cancel₀ _ hfb0]
    linear_combination (hp * fp) * hsum
  · rw [div_mul_cancel₀ _ hfa0, div_mul_cancel₀ _ hfb0]
    linear_combination (hp * fp) * hsum
  · rw [div_mul_cancel₀ _ hfa0, div_mul_cancel₀ _ hfb0]
    linear_combination (hp * fp) * hsum

/-- The clamped pair conserves total RBC flux for valid splits. -/
theorem post_sum (hp dp da db fp fa fb : ℝ)
    (hfa : (1e-36 : ℝ) ≤ fa) (hfb : (1e-36 : ℝ) ≤ fb) :
    (get_erythrocyte_fraction_post hp dp da db fp fa fb).1 * fa +
    (get_erythrocyte_fraction_post hp dp da db fp fa fb).2 * fb = hp * fp := by
  unfold get_erythrocyte_fraction_post
  exact guard_clamp_sum hp fp fa fb _ (fractional_qRBC_sum hp dp da db fa fb) hfa hfb

/-- A normal return of `get_erythrocyte_fraction` yields the clamped pair,
with both components strictly below `1`. -/
theorem get_erythrocyte_fraction_some (hp dp da db fp fa fb ha hb : ℝ)
    (hres : get_erythrocyte_fraction hp dp da db fp fa fb = some (ha, hb)) :
    (ha, hb) = get_erythrocyte_fraction_post hp dp da db fp fa fb ∧ ha < 1 ∧ hb < 1 := by
  unfold get_erythrocyte_fraction at hres
  dsimp only at hres
  split_ifs at hres with h
  · push_neg at h
    have hpair : (ha, hb) = get_erythrocyte_fraction_post hp dp da db fp fa fb :=
      (Option.some.inj hres).symm
    refine ⟨hpair, ?_, ?_⟩
    · have h1 := h.1
      rw [← hpair] at h1
      exact h1
    · have h2 := h.2
      rw [← hpair] at h2
      exact h2

/-- Claim C1: for every call to the phase-separation law in which both
daughter flows are at least `1e-36`, the returned haematocrits satisfy
`haematocrit_a * flow_a + haematocrit_b * flow_b = haematocrit_parent *
flow_parent` within `1e-5` absolute tolerance (in the real-number model the
balance is in fact exact). -/
theorem c1_rbc_conservation (hemat_par diam_par diam_a diam_b flow_parent flow_a flow_b ha hb : ℝ)
    (hfa : (1e-36 : ℝ) ≤ flow_a) (hfb : (1e-36 : ℝ) ≤ flow_b)
    (hres : get_erythrocyte_fraction hemat_par diam_par diam_a diam_b flow_parent flow_a flow_b =
      some (ha, hb)) :
    |ha * flow_a + hb * flow_b - hemat_par * flow_parent| ≤ 1e-5 := by
  obtain ⟨hpair, -, -⟩ :=
    get_erythrocyte_fraction_some hemat_par diam_par diam_a diam_b flow_parent flow_a flow_b
      ha hb hres
  have hsum := post_sum hemat_par diam_par diam_a diam_b flow_parent flow_a flow_b hfa hfb
  have h1 : ha = (get_erythrocyte_fraction_post hemat_par diam_par diam_a diam_b flow_parent
      flow_a flow_b).1 := congrArg Prod.fst hpair
  have h2 : hb = (get_erythrocyte_fraction_post hemat_par diam_par diam_a diam_b flow_parent
      flow_a flow_b).2 := congrArg Prod.snd hpair
  rw [h1, h2, hsum]
  norm_num

/-- Witness for C1 at a concrete valid split. -/
theorem c1_rbc_conservation_witness :
    ((1e-36 : ℝ) ≤ 1) ∧
    get_erythrocyte_fraction 0.4 1e-6 1e-6 1e-6 2 1 1 = some (0, 0.8) ∧
    |(0 : ℝ) * 1 + 0.8 * 1 - 0.4 * 2| ≤ 1e-5 := by
  have heval : get_erythrocyte_fraction (0.4 : ℝ) 1e-6 1e-6 1e-6 2 1 1 = some (0, 0.8) := by
    unfold get_erythrocyte_fraction get_erythrocyte_fraction_post hemat_clamp hemat_guard
      fractional_qRBC non_dimentional_param x_o_init A_o_init B_o_init
    norm_num
  exact ⟨by norm_num, heval,
    c1_rbc_conservation 0.4 1e-6 1e-6 1e-6 2 1 1 0 0.8 (by norm_num) (by norm_num) heval⟩



/-- The clamp keeps both components nonnegative, provided the input pair is
nonnegative and any component that triggers the clamp has the generic
`share * qRBCp / flow` form. -/
theorem hemat_clamp_nonneg (hp fp fa fb : ℝ) (fq h : ℝ × ℝ)
    (hfq1 : 0 ≤ fq.1) (hfq2 : 0 ≤ fq.2) (hh1 : 0 ≤ h.1) (hh2 : 0 ≤ h.2)
    (hc2 : 0.99 ≤ h.2 → h.2 = fq.2 * (hp * fp) / fb)
    (hc1 : 0.99 ≤ h.1 → h.1 = fq.1 * (hp * fp) / fa)
    (h0 : 0 ≤ hp) (h1 : 0 ≤ fp) (h2 : 0 ≤ fa) (h3 : 0 ≤ fb) :
    0 ≤ (hemat_clamp hp fp fa fb fq h).1 ∧ 0 ≤ (hemat_clamp hp fp fa fb fq h).2 := by
  have hq : 0 ≤ hp * fp := mul_nonneg h0 h1
  unfold hemat_clamp
  dsimp only
  split_ifs with c1 c2
  · have hrep := hc2 c1
    have hfb : fb ≠ 0 := by
      intro hz
      rw [hrep, hz, div_zero] at c1
      norm_num at c1
    have hqz : hp * fp ≠ 0 := by
      intro hz
      rw [hrep, hz, mul_zero, zero_div] at c1
      norm_num at c1
    have hqpos : 0 < hp * fp := lt_of_le_of_ne hq (Ne.symm hqz)
    have hs : 0 ≤ (h.2 - 0.99) * fb / (hp * fp) := by
      have hsur : 0 ≤ h.2 - 0.99 := by linarith
      exact div_nonneg (mul_nonneg hsur h3) hqpos.le
    constructor
    · exact div_nonneg (mul_nonneg (add_nonneg hfq1 hs) hq) h2
    · have heq : (fq.2 - (h.2 - 0.99) * fb / (hp * fp)) * (hp * fp) / fb = 0.99 := by
        rw [hrep]
        field_simp
      rw [heq]
      norm_num
  · have hrep := hc1 c2
    have hfa : fa ≠ 0 := by
      intro hz
      rw [hrep, hz, div_zero] at c2
      norm_num at c2
    have hqz : hp * fp ≠ 0 := by
      intro hz
      rw [hrep, hz, mul_zero, zero_div] at c2
      norm_num at c2
    have hqpos : 0 < hp * fp := lt_of_le_of_ne hq (Ne.symm hqz)
    have hs : 0 ≤ (h.1 - 0.99) * fa / (hp * fp) := by
      have hsur : 0 ≤ h.1 - 0.99 := by linarith
      exact div_nonneg (mul_nonneg hsur h2) hqpos.le
    constructor
    · have heq : (fq.1 - (h.1 - 0.99) * fa / (hp * fp)) * (hp * fp) / fa = 0.99 := by
        rw [hrep]
        field_simp
      rw [heq]
      norm_num
    · exact div_nonneg (mul_nonneg (add_nonneg hfq2 hs) hq) h3
  · exact ⟨hh1, hh2⟩

/-- Guard and clamp keep both haematocrit values nonnegative when the
haematocrit, parent flow and daughter flows are nonnegative and the shares
are nonnegative. -/
theorem guard_clamp_nonneg (hp fp fa fb : ℝ) (fq : ℝ × ℝ)
    (hfq1 : 0 ≤ fq.1) (hfq2 : 0 ≤ fq.2)
    (h0 : 0 ≤ hp) (h1 : 0 ≤ fp) (h2 : 0 ≤ fa) (h3 : 0 ≤ fb) :
    0 ≤ (hemat_clamp hp fp fa fb fq (hemat_guard hp fp fa fb fq)).1 ∧
    0 ≤ (hemat_clamp hp fp fa fb fq (hemat_guard hp fp fa fb fq)).2 := by
  have hq : 0 ≤ hp * fp := mul_nonneg h0 h1
  unfold hemat_guard
  dsimp only
  split_ifs with g1 g2
  · refine hemat_clamp_nonneg hp fp fa fb fq (0, fq.2 * (hp * fp) / fb)
      hfq1 hfq2 (le_refl 0) (div_nonneg (mul_nonneg hfq2 hq) h3) (fun _ => rfl) ?_ h0 h1 h2 h3
    intro hcontra
    norm_num at hcontra
  · refine hemat_clamp_nonneg hp fp fa fb fq (fq.1 * (hp * fp) / fa, 0)
      hfq1 hfq2 (div_nonneg (mul_nonneg hfq1 hq) h2) (le_refl 0) ?_ (fun _ => rfl) h0 h1 h2 h3
    intro hcontra
    norm_num at hcontra
  · exact hemat_clamp_nonneg hp fp fa fb fq (fq.1 * (hp * fp) / fa, fq.2 * (hp * fp) / fb)
      hfq1 hfq2 (div_nonneg (mul_nonneg hfq1 hq) h2) (div_nonneg (mul_nonneg hfq2 hq) h3)
      (fun _ => rfl) (fun _ => rfl) h0 h1 h2 h3

/-- Claim C7: the phase-separation law aborts (`sys.exit`) exactly when,
after clamping, either daughter haematocrit is at least `1`; whenever it
returns normally (with nonnegative parent haematocrit and flows), both
returned values lie in `[0, 1)`. -/
theorem c7_fatal_guard (hemat_par diam_par diam_a diam_b flow_parent flow_a flow_b : ℝ)
    (h0 : 0 ≤ hemat_par) (h1 : 0 ≤ flow_parent) (h2 : 0 ≤ flow_a) (h3 : 0 ≤ flow_b) :
    (get_erythrocyte_fraction hemat_par diam_par diam_a diam_b flow_parent flow_a flow_b = none ↔
      1 ≤ (get_erythrocyte_fraction_post hemat_par diam_par diam_a diam_b flow_parent flow_a
        flow_b).1 ∨
      1 ≤ (get_erythrocyte_fraction_post hemat_par diam_par diam_a diam_b flow_parent flow_a
        flow_b).2) ∧
    (∀ ha hb,
      get_erythrocyte_fraction hemat_par diam_par diam_a diam_b flow_parent flow_a flow_b =
        some (ha, hb) →
      0 ≤ ha ∧ ha < 1 ∧ 0 ≤ hb ∧ hb < 1) := by
  constructor
  · unfold get_erythrocyte_fraction
    dsimp only
    split_ifs with h
    · simp [h]
    · simp [h]
  · intro ha hb hres
    obtain ⟨hpair, hlt1, hlt2⟩ :=
      get_erythrocyte_fraction_some hemat_par diam_par diam_a diam_b flow_parent flow_a flow_b
        ha hb hres
    have hbounds := fractional_qRBC_bounds hemat_par diam_par diam_a diam_b flow_a flow_b
    have hnn := guard_clamp_nonneg hemat_par flow_parent flow_a flow_b
      (fractional_qRBC hemat_par diam_par diam_a diam_b flow_a flow_b)
      hbounds.1 hbounds.2.2.1 h0 h1 h2 h3
    have hpost : get_erythrocyte_fraction_post hemat_par diam_par diam_a diam_b flow_parent
        flow_a flow_b =
        hemat_clamp hemat_par flow_parent flow_a flow_b
          (fractional_qRBC hemat_par diam_par diam_a diam_b flow_a flow_b)
          (hemat_guard hemat_par flow_parent flow_a flow_b
            (fractional_qRBC hemat_par diam_par diam_a diam_b flow_a flow_b)) := rfl
    have ha1 : ha = (get_erythrocyte_fraction_post hemat_par diam_par diam_a diam_b flow_parent
        flow_a flow_b).1 := congrArg Prod.fst hpair
    have hb1 : hb = (get_erythrocyte_fraction_post hemat_par diam_par diam_a diam_b flow_parent
        flow_a flow_b).2 := congrArg Prod.snd hpair
    refine ⟨?_, hlt1, ?_, hlt2⟩
    · rw [ha1, hpost]
      exact hnn.1
    · rw [hb1, hpost]
      exact hnn.2

/-- Witness for C7 at a concrete nonnegative input. -/
theorem c7_fatal_guard_witness :
    ((0:ℝ) ≤ 0.3) ∧
    ((get_erythrocyte_fraction 0.3 1e-6 1e-6 1e-6 2 1 1 = none ↔
      1 ≤ (get_erythrocyte_fraction_post 0.3 1e-6 1e-6 1e-6 2 1 1).1 ∨
      1 ≤ (get_erythrocyte_fraction_post 0.3 1e-6 1e-6 1e-6 2 1 1).2) ∧
    (∀ ha hb, get_erythrocyte_fraction 0.3 1e-6 1e-6 1e-6 2 1 1 = some (ha, hb) →
      0 ≤ ha ∧ ha < 1 ∧ 0 ≤ hb ∧ hb < 1)) :=
  ⟨by norm_num,
   c7_fatal_guard 0.3 1e-6 1e-6 1e-6 2 1 1 (by norm_num) (by norm_num) (by norm_num)
     (by norm_num)⟩

/-- With both daughter flows at least `1e-36` the division guard takes its
generic branch. -/
theorem hemat_guard_generic (hp fp fa fb : ℝ) (fq : ℝ × ℝ)
    (hfa : ¬ fa < 1e-36) (hfb : ¬ fb < 1e-36) :
    hemat_guard hp fp fa fb fq = (fq.1 * (hp * fp) / fa, fq.2 * (hp * fp) / fb) := by
  unfold hemat_guard
  dsimp only
  rw [if_neg hfa, if_neg hfb]

/-- When the clamp fires on daughter b, the recomputed `hemat_b` is exactly
the `0.99` threshold (the generic-form hypothesis supplies the algebra). -/
theorem hemat_clamp_pin_b (hp fp fa fb : ℝ) (fq h : ℝ × ℝ)
    (hrep : h.2 = fq.2 * (hp * fp) / fb) (hc : 0.99 ≤ h.2) :
    (hemat_clamp hp fp fa fb fq h).2 = 0.99 := by
  have hfb : fb ≠ 0 := by
    intro hz
    rw [hrep, hz, div_zero] at hc
    norm_num at hc
  have hqz : hp * fp ≠ 0 := by
    intro hz
    rw [hrep, hz, mul_zero, zero_div] at hc
    norm_num at hc
  unfold hemat_clamp
  dsimp only
  rw [if_pos hc]
  dsimp only
  rw [hrep]
  field_simp

/-- When the clamp fires on daughter a (and not on b), the recomputed
`hemat_a` is exactly the `0.99` threshold. -/
theorem hemat_clamp_pin_a (hp fp fa fb : ℝ) (fq h : ℝ × ℝ)
    (hrep : h.1 = fq.1 * (hp * fp) / fa) (hnb : ¬ 0.99 ≤ h.2) (hc : 0.99 ≤ h.1) :
    (hemat_clamp hp fp fa fb fq h).1 = 0.99 := by
  have hfa : fa ≠ 0 := by
    intro hz
    rw [hrep, hz, div_zero] at hc
    norm_num at hc
  have hqz : hp * fp ≠ 0 := by
    intro hz
    rw [hrep, hz, mul_zero, zero_div] at hc
    norm_num at hc
  unfold hemat_clamp
  dsimp only
  rw [if_neg hnb, if_pos hc]
  dsimp only
  rw [hrep]
  field_simp

/-- Counterexample to claim C4 as stated: with `flow_a = 1e-40 < 1e-36` the
function returns `hemat_a = 0.01 ≠ 0` and `hemat_b = 0.99`, which also
differs from `flow_parent * hemat_parent / flow_b`, because the saturation
clamp reassigns RBC share back to daughter a after the guard. -/
theorem c4_zero_flow_guard_counterexample :
    ((1e-40 : ℝ) < 1e-36) ∧
    get_erythrocyte_fraction (0.99 + 1e-12) 1e-6 1e-6 1e-6 1e-30 1e-40 1e-30 =
      some (1/100, 99/100) ∧
    ((1/100 : ℝ) ≠ 0) ∧
    ((99/100 : ℝ) ≠ (0.99 + 1e-12) * 1e-30 / 1e-30) := by
  refine ⟨by norm_num, ?_, by norm_num, by norm_num⟩
  unfold get_erythrocyte_fraction get_erythrocyte_fraction_post hemat_clamp hemat_guard
    fractional_qRBC non_dimentional_param x_o_init A_o_init B_o_init
  norm_num

/-- Claim C4, amended: the `flow_a < 1e-36` guard assigns `hemat_a = 0` and
gives daughter b the share-weighted haematocrit; the returned pair is
exactly `(0, flow_parent * hemat_parent / flow_b)` provided the fractional
flow lies in the all-to-b region (`ff_a ≤ x0`, so the share of b is `1`) and
the resulting `hemat_b` stays below the `0.99` clamp threshold; symmetric
for `flow_b < 1e-36`. -/
theorem c4_zero_flow_guard_amended (hp dp da db fp fa fb : ℝ) :
    (fa < 1e-36 →
      fa / (fa + fb) ≤ (non_dimentional_param hp dp da db).1 →
      hp * fp / fb < 0.99 →
      get_erythrocyte_fraction hp dp da db fp fa fb = some (0, hp * fp / fb)) ∧
    (¬ fa < 1e-36 → fb < 1e-36 →
      (non_dimentional_param hp dp da db).1 < fa / (fa + fb) →
      1 - (non_dimentional_param hp dp da db).1 ≤ fa / (fa + fb) →
      hp * fp / fa < 0.99 →
      get_erythrocyte_fraction hp dp da db fp fa fb = some (hp * fp / fa, 0)) := by
  constructor
  · intro hga hffa hlt
    have hfq : fractional_qRBC hp dp da db fa fb = (0, 1) := by
      unfold fractional_qRBC
      dsimp only
      rw [if_pos hffa]
    have hguard : hemat_guard hp fp fa fb (0, 1) = (0, hp * fp / fb) := by
      unfold hemat_guard
      dsimp only
      rw [if_pos hga]
      norm_num
    have hclamp : hemat_clamp hp fp fa fb (0, 1) (0, hp * fp / fb) = (0, hp * fp / fb) := by
      unfold hemat_clamp
      dsimp only
      rw [if_neg (not_le.2 hlt), if_neg (by norm_num : ¬ (0.99 : ℝ) ≤ 0)]
    unfold get_erythrocyte_fraction get_erythrocyte_fraction_post
    dsimp only
    rw [hfq, hguard, hclamp]
    dsimp only
    rw [if_neg]
    push_neg
    constructor
    · norm_num
    · linarith
  · intro hga hgb hx1 hx2 hlt
    have hfq : fractional_qRBC hp dp da db fa fb = (1, 0) := by
      unfold fractional_qRBC
      dsimp only
      rw [if_neg (not_le.2 hx1), if_neg (not_lt.2 hx2)]
    have hguard : hemat_guard hp fp fa fb (1, 0) = (hp * fp / fa, 0) := by
      unfold hemat_guard
      dsimp only
      rw [if_neg hga, if_pos hgb]
      norm_num
    have hclamp : hemat_clamp hp fp fa fb (1, 0) (hp * fp / fa, 0) = (hp * fp / fa, 0) := by
      unfold hemat_clamp
      dsimp only
      rw [if_neg (by norm_num : ¬ (0.99 : ℝ) ≤ 0), if_neg (not_le.2 hlt)]
    unfold get_erythrocyte_fraction get_erythrocyte_fraction_post
    dsimp only
    rw [hfq, hguard, hclamp]
    dsimp only
    rw [if_neg]
    push_neg
    constructor
    · linarith
    · norm_num

/-- Witness for the amended C4 at a concrete input with `flow_a = 0`. -/
theorem c4_zero_flow_guard_amended_witness :
    ((0 : ℝ) < 1e-36) ∧
    ((0 : ℝ) / (0 + 1) ≤ (non_dimentional_param 0.4 1e-6 1e-6 1e-6).1) ∧
    ((0.4 * 1 / 1 : ℝ) < 0.99) ∧
    get_erythrocyte_fraction 0.4 1e-6 1e-6 1e-6 1 0 1 = some (0, 0.4 * 1 / 1) := by
  have h1 : (0 : ℝ) < 1e-36 := by norm_num
  have h2 : (0 : ℝ) / (0 + 1) ≤ (non_dimentional_param 0.4 1e-6 1e-6 1e-6).1 := by
    unfold non_dimentional_param x_o_init
    norm_num
  have h3 : (0.4 * 1 / 1 : ℝ) < 0.99 := by norm_num
  exact ⟨h1, h2, h3, (c4_zero_flow_guard_amended 0.4 1e-6 1e-6 1e-6 1 0 1).1 h1 h2 h3⟩

/-- Counterexample to claim C5 as stated: an input with `ff_a ≤ x0` (and
also `ff_a ≥ 1 - x0`, since `x0 > 1/2` here) on which the function returns
`(0.009, 0.99)`, matching neither prescribed pair, because `hemat_b` hits
the saturation clamp. -/
theorem c5_saturated_region_counterexample :
    ((0.5 / (0.5 + 1) : ℝ) ≤ (non_dimentional_param 0.9 1e-7 1e-7 1e-7).1) ∧
    (1 - (non_dimentional_param 0.9 1e-7 1e-7 1e-7).1 ≤ (0.5 / (0.5 + 1) : ℝ)) ∧
    get_erythrocyte_fraction 0.9 1e-7 1e-7 1e-7 1.105 0.5 1 = some (9/1000, 99/100) ∧
    (((9/1000 : ℝ), (99/100 : ℝ)) ≠ ((0 : ℝ), (0.9 * 1.105 / 1 : ℝ))) ∧
    (((9/1000 : ℝ), (99/100 : ℝ)) ≠ ((0.9 * 1.105 / 0.5 : ℝ), (0 : ℝ))) := by
  refine ⟨?_, ?_, ?_, ?_, ?_⟩
  · unfold non_dimentional_param x_o_init
    norm_num
  · unfold non_dimentional_param x_o_init
    norm_num
  · unfold get_erythrocyte_fraction get_erythrocyte_fraction_post hemat_clamp hemat_guard
      fractional_qRBC non_dimentional_param x_o_init A_o_init B_o_init
    norm_num
  · intro h
    have := congrArg Prod.fst h
    norm_num at this
  · intro h
    have := congrArg Prod.snd h
    norm_num at this

/-- Claim C5, amended: in the all-to-b region (`ff_a ≤ x0`), if additionally
`flow_b ≥ 1e-36` and the value `flow_p * hemat_p / flow_b` stays below the
`0.99` clamp threshold, the function returns exactly
`(0, flow_p * hemat_p / flow_b)`; in the all-to-a region
(`x0 < ff_a` and `ff_a ≥ 1 - x0`, the branch order of the code), if
`flow_a ≥ 1e-36` and `flow_p * hemat_p / flow_a < 0.99`, it returns exactly
`(flow_p * hemat_p / flow_a, 0)`. -/
theorem c5_saturated_region_amended (hp dp da db fp fa fb : ℝ) :
    (fa / (fa + fb) ≤ (non_dimentional_param hp dp da db).1 →
      ¬ fb < 1e-36 →
      hp * fp / fb < 0.99 →
      get_erythrocyte_fraction hp dp da db fp fa fb = some (0, hp * fp / fb)) ∧
    ((non_dimentional_param hp dp da db).1 < fa / (fa + fb) →
      1 - (non_dimentional_param hp dp da db).1 ≤ fa / (fa + fb) →
      ¬ fa < 1e-36 →
      hp * fp / fa < 0.99 →
      get_erythrocyte_fraction hp dp da db fp fa fb = some (hp * fp / fa, 0)) := by
  constructor
  · intro hffa hfb hlt
    have hfq : fractional_qRBC hp dp da db fa fb = (0, 1) := by
      unfold fractional_qRBC
      dsimp only
      rw [if_pos hffa]
    have hguard : hemat_guard hp fp fa fb (0, 1) = (0, hp * fp / fb) := by
      unfold hemat_guard
      dsimp only
      by_cases hga : fa < 1e-36
      · rw [if_pos hga]
        norm_num
      · rw [if_neg hga, if_neg hfb]
        norm_num
    have hclamp : hemat_clamp hp fp fa fb (0, 1) (0, hp * fp / fb) = (0, hp * fp / fb) := by
      unfold hemat_clamp
      dsimp only
      rw [if_neg (not_le.2 hlt), if_neg (by norm_num : ¬ (0.99 : ℝ) ≤ 0)]
    unfold get_erythrocyte_fraction get_erythrocyte_fraction_post
    dsimp only
    rw [hfq, hguard, hclamp]
    dsimp only
    rw [if_neg]
    push_neg
    constructor
    · norm_num
    · linarith
  · intro hx1 hx2 hfa hlt
    have hfq : fractional_qRBC hp dp da db fa fb = (1, 0) := by
      unfold fractional_qRBC
      dsimp only
      rw [if_neg (not_le.2 hx1), if_neg (not_lt.2 hx2)]
    have hguard : hemat_guard hp fp fa fb (1, 0) = (hp * fp / fa, 0) := by
      unfold hemat_guard
      dsimp only
      rw [if_neg hfa]
      by_cases hgb : fb < 1e-36
      · rw [if_pos hgb]
        norm_num
      · rw [if_neg hgb]
        norm_num
    have hclamp : hemat_clamp hp fp fa fb (1, 0) (hp * fp / fa, 0) = (hp * fp / fa, 0) := by
      unfold hemat_clamp
      dsimp only
      rw [if_neg (by norm_num : ¬ (0.99 : ℝ) ≤ 0), if_neg (not_le.2 hlt)]
    unfold get_erythrocyte_fraction get_erythrocyte_fraction_post
    dsimp only
    rw [hfq, hguard, hclamp]
    dsimp only
    rw [if_neg]
    push_neg
    constructor
    · linarith
    · norm_num

/-- Witness for the amended C5 at a concrete valid split in the all-to-b
region without saturation. -/
theorem c5_saturated_region_amended_witness :
    ((0.9 / (0.9 + 1.1) : ℝ) ≤ (non_dimentional_param 0.4 1e-6 1e-6 1e-6).1) ∧
    (¬ (1.1 : ℝ) < 1e-36) ∧
    ((0.4 * 2 / 1.1 : ℝ) < 0.99) ∧
    get_erythrocyte_fraction 0.4 1e-6 1e-6 1e-6 2 0.9 1.1 = some (0, 0.4 * 2 / 1.1) := by
  have h1 : (0.9 / (0.9 + 1.1) : ℝ) ≤ (non_dimentional_param 0.4 1e-6 1e-6 1e-6).1 := by
    unfold non_dimentional_param x_o_init
    norm_num
  have h2 : ¬ (1.1 : ℝ) < 1e-36 := by norm_num
  have h3 : (0.4 * 2 / 1.1 : ℝ) < 0.99 := by norm_num
  exact ⟨h1, h2, h3, (c5_saturated_region_amended 0.4 1e-6 1e-6 1e-6 2 0.9 1.1).1 h1 h2 h3⟩

/-- Counterexample to claim C6 as stated: the clamp fires on daughter b, and
the returned pair is `(0.995, 0.99)` — the receiving daughter a ends up
above the `0.99` packing threshold. -/
theorem c6_saturation_clamp_counterexample :
    ((0.99 : ℝ) ≤ (hemat_guard 0.9 1.105 (9/1990) 1
      (fractional_qRBC 0.9 1e-6 1e-6 1e-6 (9/1990) 1)).2) ∧
    get_erythrocyte_fraction 0.9 1e-6 1e-6 1e-6 1.105 (9/1990) 1 = some (199/200, 99/100) ∧
    ((0.99 : ℝ) < 199/200) := by
  refine ⟨?_, ?_, by norm_num⟩
  · unfold hemat_guard fractional_qRBC non_dimentional_param x_o_init A_o_init B_o_init
    norm_num
  · unfold get_erythrocyte_fraction get_erythrocyte_fraction_post hemat_clamp hemat_guard
      fractional_qRBC non_dimentional_param x_o_init A_o_init B_o_init
    norm_num

/-- Claim C6, amended: for a valid split, when the computed `hemat_b`
reaches the `0.99` threshold the excess RBC share moves to daughter a, the
clamped daughter is returned at exactly `0.99`, and total RBC flux is
conserved; symmetrically when only `hemat_a` reaches the threshold.  The
receiving daughter is bounded only by the `< 1` fatal guard on a normal
return (it may exceed `0.99`). -/
theorem c6_saturation_clamp_amended (hp dp da db fp fa fb : ℝ)
    (hfa : (1e-36 : ℝ) ≤ fa) (hfb : (1e-36 : ℝ) ≤ fb) :
    (0.99 ≤ (hemat_guard hp fp fa fb (fractional_qRBC hp dp da db fa fb)).2 →
      (get_erythrocyte_fraction_post hp dp da db fp fa fb).2 = 0.99 ∧
      (get_erythrocyte_fraction_post hp dp da db fp fa fb).1 * fa +
        (get_erythrocyte_fraction_post hp dp da db fp fa fb).2 * fb = hp * fp) ∧
    ((hemat_guard hp fp fa fb (fractional_qRBC hp dp da db fa fb)).2 < 0.99 →
      0.99 ≤ (hemat_guard hp fp fa fb (fractional_qRBC hp dp da db fa fb)).1 →
      (get_erythrocyte_fraction_post hp dp da db fp fa fb).1 = 0.99 ∧
      (get_erythrocyte_fraction_post hp dp da db fp fa fb).1 * fa +
        (get_erythrocyte_fraction_post hp dp da db fp fa fb).2 * fb = hp * fp) ∧
    (∀ ha hb,
      get_erythrocyte_fraction hp dp da db fp fa fb = some (ha, hb) → ha < 1 ∧ hb < 1) := by
  have hga : ¬ fa < 1e-36 := not_lt.2 hfa
  have hgb : ¬ fb < 1e-36 := not_lt.2 hfb
  have hguard := hemat_guard_generic hp fp fa fb
    (fractional_qRBC hp dp da db fa fb) hga hgb
  have hpost : get_erythrocyte_fraction_post hp dp da db fp fa fb =
      hemat_clamp hp fp fa fb (fractional_qRBC hp dp da db fa fb)
        (hemat_guard hp fp fa fb (fractional_qRBC hp dp da db fa fb)) := rfl
  refine ⟨?_, ?_, ?_⟩
  · intro hc
    constructor
    · rw [hpost]
      refine hemat_clamp_pin_b hp fp fa fb _ _ ?_ hc
      rw [hguard]
    · exact post_sum hp dp da db fp fa fb hfa hfb
  · intro hnb hc
    constructor
    · rw [hpost]
      refine hemat_clamp_pin_a hp fp fa fb _ _ ?_ (not_le.2 hnb) hc
      rw [hguard]
    · exact post_sum hp dp da db fp fa fb hfa hfb
  · intro ha hb hres
    obtain ⟨-, h1, h2⟩ :=
      get_erythrocyte_fraction_some hp dp da db fp fa fb ha hb hres
    exact ⟨h1, h2⟩

/-- Witness for the amended C6 at a concrete clamping input. -/
theorem c6_saturation_clamp_amended_witness :
    ((1e-36 : ℝ) ≤ 0.1) ∧ ((1e-36 : ℝ) ≤ 1) ∧
    ((0.99 : ℝ) ≤ (hemat_guard 0.9 1.2 0.1 1 (fractional_qRBC 0.9 1e-6 1e-6 1e-6 0.1 1)).2) ∧
    ((get_erythrocyte_fraction_post 0.9 1e-6 1e-6 1e-6 1.2 0.1 1).2 = 0.99 ∧
      (get_erythrocyte_fraction_post 0.9 1e-6 1e-6 1e-6 1.2 0.1 1).1 * 0.1 +
        (get_erythrocyte_fraction_post 0.9 1e-6 1e-6 1e-6 1.2 0.1 1).2 * 1 = 0.9 * 1.2) := by
  have h1 : (1e-36 : ℝ) ≤ 0.1 := by norm_num
  have h2 : (1e-36 : ℝ) ≤ 1 := by norm_num
  have h3 : (0.99 : ℝ) ≤
      (hemat_guard 0.9 1.2 0.1 1 (fractional_qRBC 0.9 1e-6 1e-6 1e-6 0.1 1)).2 := by
    unfold hemat_guard fractional_qRBC non_dimentional_param x_o_init A_o_init B_o_init
    norm_num
  exact ⟨h1, h2, h3, (c6_saturation_clamp_amended 0.9 1e-6 1e-6 1e-6 1.2 0.1 1 h1 h2).1 h3⟩

/-- For `j ≤ 2000` steps from a fresh start the loop has done exactly `j`
iterations and has stopped exactly at the cap `j = 2000`: the convergence
branch requires `iteration > 2000` and therefore cannot fire before the
`iteration == 2000` cap. -/
theorem loop_run_spec (residual : ℕ → ℝ) (berg_criteria : ℝ) :
    ∀ j, j ≤ 2000 →
      (loop_run residual berg_criteria j).iteration = j ∧
      ((loop_run residual berg_criteria j).convergence_check = true ↔ j = 2000) := by
  intro j
  induction j with
  | zero =>
    intro _
    constructor
    · rfl
    · simp [loop_run]
  | succ n ih =>
    intro hle
    obtain ⟨hit, hcv⟩ := ih (by omega)
    have hfalse : (loop_run residual berg_criteria n).convergence_check = false := by
      have hne : ¬ (loop_run residual berg_criteria n).convergence_check = true := by
        rw [hcv]
        omega
      exact Bool.not_eq_true _ ▸ eq_false_of_ne_true hne
    have h0 : loop_run residual berg_criteria (n + 1) =
        if (loop_run residual berg_criteria n).convergence_check = true then
          loop_run residual berg_criteria n
        else loop_body residual berg_criteria (loop_run residual berg_criteria n) := rfl
    have hstep : loop_run residual berg_criteria (n + 1) =
        loop_body residual berg_criteria (loop_run residual berg_criteria n) := by
      rw [h0, hfalse]
      simp
    rw [hstep]
    unfold loop_body
    rw [hit]
    dsimp only
    split_ifs with h1 h2
    · exact absurd h1.2.2 (by omega)
    · constructor
      · rfl
      · simp [h2]
    · constructor
      · rfl
      · simp [h2]

/-- After the cap the loop state no longer changes: no run of the loop
exceeds `2000` iterations. -/
theorem loop_run_stable (residual : ℕ → ℝ) (berg_criteria : ℝ) :
    ∀ j, 2000 ≤ j →
      loop_run residual berg_criteria j = loop_run residual berg_criteria 2000 := by
  intro j hj
  induction j, hj using Nat.le_induction with
  | base => rfl
  | succ n hn ih =>
    have hconv : (loop_run residual berg_criteria n).convergence_check = true := by
      rw [ih]
      exact (loop_run_spec residual berg_criteria 2000 le_rfl).2.mpr rfl
    have h0 : loop_run residual berg_criteria (n + 1) =
        if (loop_run residual berg_criteria n).convergence_check = true then
          loop_run residual berg_criteria n
        else loop_body residual berg_criteria (loop_run residual berg_criteria n) := rfl
    rw [h0, hconv]
    simpa using ih

/-- Claim C10: the outer convergence loop always terminates — one loop body
reports convergence exactly when `iteration > 2` and the Berg residual is at
most the configured threshold and `iteration` exceeds the warm-up count
`2000`, or the fixed cap `iteration == 2000` is hit; from a fresh start the
run stops exactly at the cap and no run exceeds that many iterations. -/
theorem c10_convergence_loop (residual : ℕ → ℝ) (berg_criteria : ℝ) :
    (∀ s : LoopState,
      ((loop_body residual berg_criteria s).convergence_check = true ↔
        (2 < s.iteration + 1 ∧ residual (s.iteration + 1) ≤ berg_criteria ∧
          2000 < s.iteration + 1) ∨ s.iteration + 1 = 2000)) ∧
    (∀ j, j ≤ 2000 →
      (loop_run residual berg_criteria j).iteration = j ∧
      ((loop_run residual berg_criteria j).convergence_check = true ↔ j = 2000)) ∧
    (∀ j, 2000 ≤ j →
      loop_run residual berg_criteria j = loop_run residual berg_criteria 2000) := by
  refine ⟨?_, loop_run_spec residual berg_criteria, loop_run_stable residual berg_criteria⟩
  intro s
  unfold loop_body
  dsimp only
  split_ifs with h1 h2
  · simp [h1]
  · simp [h2]
  · simp [h1, h2]

/-- Witness for C10: with any residual sequence the fresh-start run is
force-stopped at exactly `2000` iterations. -/
theorem c10_convergence_loop_witness :
    (2000 ≤ 2000) ∧
    ((loop_run (fun _ => 0) 0 2000).iteration = 2000 ∧
      ((loop_run (fun _ => 0) 0 2000).convergence_check = true ↔ 2000 = 2000)) :=
  ⟨le_refl 2000, (c10_convergence_loop (fun _ => 0) 0).2.1 2000 (le_refl 2000)⟩

/-- Totality of the pair comparison: a failed comparison flips. -/
theorem pairLe_flip (a b : ℝ × ℕ) (h : ¬ pairLe a b) : pairLe b a := by
  unfold pairLe at *
  push_neg at h
  obtain ⟨h1, h2⟩ := h
  rcases lt_or_eq_of_le h1 with hlt | heq
  · exact Or.inl hlt
  · exact Or.inr ⟨heq, le_of_lt (h2 heq.symm)⟩

/-- Transitivity of the pair comparison. -/
theorem pairLe_trans (a b c : ℝ × ℕ) (h1 : pairLe a b) (h2 : pairLe b c) : pairLe a c := by
  unfold pairLe at *
  rcases h1 with h1 | ⟨h1, h1'⟩ <;> rcases h2 with h2 | ⟨h2, h2'⟩
  · exact Or.inl (lt_trans h1 h2)
  · exact Or.inl (by rw [← h2]; exact h1)
  · exact Or.inl (by rw [h1]; exact h2)
  · exact Or.inr ⟨h1.trans h2, le_trans h1' h2'⟩

/-- Membership in an ordered insertion. -/
theorem mem_insertAsc (x y : ℝ × ℕ) : ∀ l : List (ℝ × ℕ), y ∈ insertAsc x l ↔ y = x ∨ y ∈ l := by
  intro l
  induction l with
  | nil => simp [insertAsc]
  | cons h t ih =>
    unfold insertAsc
    split_ifs with hc
    · rw [List.mem_cons, ih, List.mem_cons]
      tauto
    · rw [List.mem_cons]

/-- Ordered insertion preserves sortedness. -/
theorem sorted_insertAsc (x : ℝ × ℕ) :
    ∀ l : List (ℝ × ℕ), l.Pairwise pairLe → (insertAsc x l).Pairwise pairLe := by
  intro l
  induction l with
  | nil => intro _; simp [insertAsc]
  | cons h t ih =>
    intro hp
    rw [List.pairwise_cons] at hp
    obtain ⟨hhead, htail⟩ := hp
    unfold insertAsc
    split_ifs with hc
    · rw [List.pairwise_cons]
      refine ⟨?_, ih htail⟩
      intro y hy
      rcases (mem_insertAsc x y t).1 hy with rfl | hyt
      · exact hc
      · exact hhead y hyt
    · rw [List.pairwise_cons]
      refine ⟨?_, List.pairwise_cons.2 ⟨hhead, htail⟩⟩
      intro y hy
      rcases List.mem_cons.1 hy with hyh | hyt
      · rw [hyh]
        exact pairLe_flip h x hc
      · exact pairLe_trans x h y (pairLe_flip h x hc) (hhead y hyt)

/-- Ordered insertion is a permutation of consing. -/
theorem insertAsc_perm (x : ℝ × ℕ) : ∀ l : List (ℝ × ℕ), (insertAsc x l).Perm (x :: l) := by
  intro l
  induction l with
  | nil => exact List.Perm.refl _
  | cons h t ih =>
    unfold insertAsc
    split_ifs with hc
    · exact (ih.cons h).trans (List.Perm.swap x h t)
    · exact List.Perm.refl _

/-- The insertion sort is sorted. -/
theorem sortAsc_sorted : ∀ l : List (ℝ × ℕ), (sortAsc l).Pairwise pairLe := by
  intro l
  induction l with
  | nil => simp [sortAsc]
  | cons h t ih => exact sorted_insertAsc h (sortAsc t) ih

/-- The insertion sort permutes its input. -/
theorem sortAsc_perm : ∀ l : List (ℝ × ℕ), (sortAsc l).Perm l := by
  intro l
  induction l with
  | nil => exact List.Perm.refl _
  | cons h t ih => exact (insertAsc_perm h (sortAsc t)).trans (ih.cons h)

/-- The node column of the `[pressure, node]` rows is `range n`. -/
theorem pressure_pairs_snd (p : List ℝ) :
    (pressure_pairs p).map Prod.snd = List.range p.length := by
  unfold pressure_pairs
  rw [List.map_map]
  have h : (Prod.snd ∘ fun x : ℕ × ℝ => (x.2, x.1)) = Prod.fst := rfl
  rw [h, List.enum_map_fst]

/-- Every `[pressure, node]` row carries the pressure of its node. -/
theorem pressure_pairs_val (p : List ℝ) : ∀ x ∈ pressure_pairs p, x.1 = p.getD x.2 0 := by
  intro x hx
  unfold pressure_pairs at hx
  obtain ⟨y, hy, rfl⟩ := List.mem_map.1 hx
  have hget := List.mem_enum_iff_getElem?.1 hy
  dsimp only
  rw [List.getD_eq_getElem?_getD, hget]
  rfl

/-- The processing order is a permutation of all node ids. -/
theorem ordered_node_perm (p : List ℝ) : (ordered_node p).Perm (List.range p.length) := by
  unfold ordered_node
  refine (List.reverse_perm _).trans ?_
  have h1 : ((sortAsc (pressure_pairs p)).map Prod.snd).Perm
      ((pressure_pairs p).map Prod.snd) := (sortAsc_perm _).map _
  rw [pressure_pairs_snd] at h1
  exact h1

/-- The processing order is strictly descending in pressure with ties broken
by descending node id. -/
theorem ordered_node_sorted (p : List ℝ) :
    (ordered_node p).Pairwise (node_before p) := by
  unfold ordered_node node_before
  rw [List.pairwise_reverse, List.pairwise_map]
  have hsorted := sortAsc_sorted (pressure_pairs p)
  have hnodup : (sortAsc (pressure_pairs p)).Pairwise (fun a b => a.2 ≠ b.2) := by
    have hperm : ((sortAsc (pressure_pairs p)).map Prod.snd).Perm (List.range p.length) := by
      have h1 : ((sortAsc (pressure_pairs p)).map Prod.snd).Perm
          ((pressure_pairs p).map Prod.snd) := (sortAsc_perm _).map _
      rw [pressure_pairs_snd] at h1
      exact h1
    have h2 : ((sortAsc (pressure_pairs p)).map Prod.snd).Nodup :=
      hperm.nodup_iff.2 (List.nodup_range _)
    have h2' : ((sortAsc (pressure_pairs p)).map Prod.snd).Pairwise (fun a b => a ≠ b) := h2
    rw [List.pairwise_map] at h2'
    exact h2'
  have hval : ∀ x ∈ sortAsc (pressure_pairs p), x.1 = p.getD x.2 0 := by
    intro x hx
    exact pressure_pairs_val p x ((sortAsc_perm _).mem_iff.1 hx)
  refine (hsorted.and hnodup).imp_of_mem ?_
  intro a b ha hb hab
  obtain ⟨hle, hne⟩ := hab
  unfold pairLe at hle
  rcases hle with h | ⟨h, h'⟩
  · left
    rw [← hval a ha, ← hval b hb]
    exact h
  · right
    constructor
    · rw [← hval a ha, ← hval b hb]
      exact h.symm
    · exact lt_of_le_of_ne h' hne

/-- Every parent edge found by the ordered scan has its far endpoint among
the nodes that appear strictly before `n` in the scanned order. -/
theorem parent_edge_scan_before (el : List (ℕ × ℕ)) (n e : ℕ) :
    ∀ ord : List ℕ, e ∈ parent_edge_scan (edge_connected_enum el n) n ord →
      far_endpoint (el.getD e (0, 0)) n ∈ ord.takeWhile (fun m => m ≠ n) := by
  intro ord
  induction ord with
  | nil => simp [parent_edge_scan]
  | cons onode rest ih =>
    intro hmem
    unfold parent_edge_scan at hmem
    by_cases hon : onode = n
    · rw [if_pos hon] at hmem
      simp at hmem
    · rw [if_neg hon] at hmem
      have htake : (onode :: rest).takeWhile (fun m => m ≠ n) =
          onode :: rest.takeWhile (fun m => m ≠ n) := by
        rw [List.takeWhile_cons]
        simp [hon]
      rw [htake]
      rcases List.mem_append.1 hmem with hpart | hrest
      · obtain ⟨pr, hprf, hpr1⟩ := List.mem_map.1 hpart
        have hfil := List.mem_filter.1 hprf
        obtain ⟨hprec, hpron⟩ := hfil
        have hpron' : pr.2.1 = onode ∨ pr.2.2 = onode := by
          rcases Bool.or_eq_true_iff.1 hpron with h | h
          · exact Or.inl (by exact_mod_cast of_decide_eq_true h)
          · exact Or.inr (by exact_mod_cast of_decide_eq_true h)
        unfold edge_connected_enum at hprec
        have hfil2 := List.mem_filter.1 hprec
        obtain ⟨hpen, hpn⟩ := hfil2
        have hpn' : pr.2.1 = n ∨ pr.2.2 = n := by
          rcases Bool.or_eq_true_iff.1 hpn with h | h
          · exact Or.inl (by exact_mod_cast of_decide_eq_true h)
          · exact Or.inr (by exact_mod_cast of_decide_eq_true h)
        have hgd : el.getD pr.1 (0, 0) = pr.2 := by
          have hget := List.mem_enum_iff_getElem?.1 hpen
          rw [List.getD_eq_getElem?_getD, hget]
          rfl
        have hfar : far_endpoint (el.getD e (0, 0)) n = onode := by
          rw [← hpr1, hgd]
          unfold far_endpoint
          rcases hpn' with hp1 | hp2
          · rw [if_pos hp1]
            rcases hpron' with hq1 | hq2
            · exact absurd (hq1.symm.trans hp1) hon
            · exact hq2
          · by_cases hp1 : pr.2.1 = n
            · rw [if_pos hp1]
              rcases hpron' with hq1 | hq2
              · exact absurd (hq1.symm.trans hp1) hon
              · exact hq2
            · rw [if_neg hp1]
              rcases hpron' with hq1 | hq2
              · exact hq1
              · exact absurd (hq2.symm.trans hp2) hon
        rw [hfar]
        exact List.mem_cons_self onode _
      · exact List.mem_cons_of_mem onode (ih hrest)

/-- Counterexample to claim C3 as stated: two nodes with equal pressure `5`
are processed in the order `[1, 0]` — the `argsort` ascending order is
reversed, so pressure ties are broken by descending node id, not ascending
(the claimed stable original-id order would give `[0, 1]`). -/
theorem c3_processing_order_counterexample :
    ordered_node [(5 : ℝ), 5] = [1, 0] ∧ ordered_node [(5 : ℝ), 5] ≠ [0, 1] := by
  have h : ordered_node [(5 : ℝ), 5] = [1, 0] := by
    norm_num [ordered_node, sortAsc, insertAsc, pressure_pairs, pairLe, List.enum,
      List.enumFrom]
  refine ⟨h, ?_⟩
  rw [h]
  simp

/-- Claim C3, amended: within one pass the nodes are processed in a total
order of strictly descending pressure with ties broken by descending
original node id (the ordering is a permutation of all node ids); and for
every node, the far endpoint of each of its parent edges appears strictly
before that node in the processing order. -/
theorem c3_processing_order_amended (p : List ℝ) (el : List (ℕ × ℕ)) (n e : ℕ) :
    (ordered_node p).Perm (List.range p.length) ∧
    (ordered_node p).Pairwise (node_before p) ∧
    (e ∈ parents_of el (ordered_node p) n →
      far_endpoint (el.getD e (0, 0)) n ∈ (ordered_node p).takeWhile (fun m => m ≠ n)) := by
  refine ⟨ordered_node_perm p, ordered_node_sorted p, ?_⟩
  intro hmem
  unfold parents_of at hmem
  exact parent_edge_scan_before el n e (ordered_node p) hmem

/-- Witness for the amended C3: in the two-node network with pressures
`[3, 2]` and edge `(0, 1)`, edge `0` is a parent of node `1` and its far
endpoint `0` is processed earlier. -/
theorem c3_processing_order_amended_witness :
    ((0 : ℕ) ∈ parents_of [(0, 1)] (ordered_node [(3 : ℝ), 2]) 1) ∧
    far_endpoint (([(0, 1)] : List (ℕ × ℕ)).getD 0 (0, 0)) 1 ∈
      (ordered_node [(3 : ℝ), 2]).takeWhile (fun m => m ≠ 1) := by
  have hord : ordered_node [(3 : ℝ), 2] = [0, 1] := by
    norm_num [ordered_node, sortAsc, insertAsc, pressure_pairs, pairLe, List.enum,
      List.enumFrom]
  have hmem : (0 : ℕ) ∈ parents_of [(0, 1)] (ordered_node [(3 : ℝ), 2]) 1 := by
    rw [hord]
    norm_num [parents_of, parent_edge_scan, edge_connected_enum, List.enum, List.enumFrom]
  exact ⟨hmem, (c3_processing_order_amended [(3 : ℝ), 2] [(0, 1)] 1 0).2.2 hmem⟩

/-- Claim C8: for each of the five configuration shapes the checker returns
`0` exactly when both the volumetric flow balance and the RBC flux balance
hold within absolute tolerance `1e-5` (and `1` otherwise); and `update_hd`
terminates the process fatally at the end of a pass if and only if the
accumulated imbalance count is nonzero. -/
theorem c8_mass_balance_checker :
    (∀ fap fbp fcp fad fbd fcd hap hbp hcp had hbd hcd : ℝ,
      (qRCS 1 fap fbp fcp fad fbd fcd hap hbp hcp had hbd hcd = 0 ↔
        |fap - fad| ≤ 1e-5 ∧ |fap * hap - fad * had| ≤ 1e-5) ∧
      (qRCS 2 fap fbp fcp fad fbd fcd hap hbp hcp had hbd hcd = 0 ↔
        |fap - (fad + fbd)| ≤ 1e-5 ∧ |fap * hap - (fad * had + fbd * hbd)| ≤ 1e-5) ∧
      (qRCS 3 fap fbp fcp fad fbd fcd hap hbp hcp had hbd hcd = 0 ↔
        |fap - (fad + fbd + fcd)| ≤ 1e-5 ∧
          |fap * hap - (fad * had + fbd * hbd + fcd * hcd)| ≤ 1e-5) ∧
      (qRCS 4 fap fbp fcp fad fbd fcd hap hbp hcp had hbd hcd = 0 ↔
        |fap + fbp - fad| ≤ 1e-5 ∧ |fap * hap + fbp * hbp - fad * had| ≤ 1e-5) ∧
      (qRCS 5 fap fbp fcp fad fbd fcd hap hbp hcp had hbd hcd = 0 ↔
        |fap + fbp + fcp - fad| ≤ 1e-5 ∧
          |fap * hap + fbp * hbp + fcp * hcp - fad * had| ≤ 1e-5)) ∧
    (∀ (net : FlowNet) (st : PassState),
      runNodes net (ordered_node net.pressure) (ordered_node net.pressure) (initState net) =
        .ok st →
      (update_hd net = .fatal st.rbc ↔ st.rbc ≠ 0)) := by
  constructor
  · intro fap fbp fcp fad fbd fcd hap hbp hcp had hbd hcd
    refine ⟨?_, ?_, ?_, ?_, ?_⟩ <;>
      (unfold qRCS; dsimp only; split_ifs <;> simp [*])
  · intro net st hrun
    unfold update_hd
    rw [hrun]
    dsimp only
    split_ifs with h
    · simp
      omega
    · simp
      omega

/-- `count_collapse` only takes the values `0`, `1`, `2`, `3`. -/
theorem count_collapse_cases (k : ℕ) :
    count_collapse k = 0 ∨ count_collapse k = 1 ∨ count_collapse k = 2 ∨
      count_collapse k = 3 := by
  rcases k with _ | _ | _ | _ | m <;> simp [count_collapse]

/-- Claim C9, amended: a node whose `(n_parent, n_daughter)` pair has no
dispatch case keeps all edges' haematocrit values (no write), leaves the
imbalance count unchanged, and the pass continues (non-fatal); but a warning
is recorded only for interior nodes with zero classified parents — every
other unrecognized combination, including all boundary ones, is skipped
silently. -/
theorem c9_unrecognized_topology_amended (net : FlowNet) (ord : List ℕ) (st : PassState)
    (n : ℕ) :
    (n ∉ net.boundary_vs →
      (np_of net.edge_list ord n, nd_of net.edge_list ord n) ∉
        ([(1, 1), (1, 2), (1, 3), (2, 1), (2, 2), (3, 1)] : List (ℕ × ℕ)) →
      ∃ st', processNode net ord st n = .ok st' ∧ st'.hd = st.hd ∧ st'.rbc = st.rbc ∧
        st'.warn = (if np_of net.edge_list ord n = 0 then st.warn ++ [n] else st.warn)) ∧
    (n ∈ net.boundary_vs →
      ¬ boundary_handled (np_of net.edge_list ord n) (nd_of net.edge_list ord n) →
      ∃ st', processNode net ord st n = .ok st' ∧ st'.hd = st.hd ∧ st'.rbc = st.rbc ∧
        st'.warn = st.warn) := by
  constructor
  · intro hni hun
    have hp := count_collapse_cases (parents_of net.edge_list ord n).length
    have hdc := count_collapse_cases (daughters_of net.edge_list ord n).length
    unfold np_of nd_of at hun
    unfold np_of
    unfold processNode
    dsimp only
    rw [if_neg hni]
    rcases hp with h | h | h | h <;> rcases hdc with h' | h' | h' | h' <;>
      rw [h, h'] at hun ⊢ <;>
      first
        | exact absurd (by decide) hun
        | (refine ⟨_, rfl, ?_, ?_, ?_⟩ <;> (dsimp only; split_ifs <;> simp_all))
  · intro hb hun
    have hp := count_collapse_cases (parents_of net.edge_list ord n).length
    have hdc := count_collapse_cases (daughters_of net.edge_list ord n).length
    unfold np_of nd_of at hun
    unfold processNode
    dsimp only
    rw [if_pos hb]
    rcases hp with h | h | h | h <;> rcases hdc with h' | h' | h' | h' <;>
      rw [h, h'] at hun ⊢ <;>
      first
        | exact absurd (by unfold boundary_handled; decide) hun
        | (refine ⟨_, rfl, ?_, ?_, ?_⟩ <;> (dsimp only; split_ifs <;> simp_all))

/-- Counterexample to claim C9 as stated: in `netC9` the isolated boundary
node `2` has the unrecognized configuration `(0, 0)`, yet the pass completes
with warning list `[0]` — only the interior zero-parent node `0` was warned;
no warning is logged for node `2` (nor for the interior `(1, 0)` node `1`). -/
theorem c9_unrecognized_topology_counterexample :
    ¬ boundary_handled (np_of netC9.edge_list (ordered_node netC9.pressure) 2)
        (nd_of netC9.edge_list (ordered_node netC9.pressure) 2) ∧
    (2 : ℕ) ∈ netC9.boundary_vs ∧
    runNodes netC9 (ordered_node netC9.pressure) (ordered_node netC9.pressure)
      (initState netC9) = .ok ⟨[0.3], 0, none, none, [0]⟩ ∧
    (2 : ℕ) ∉ ([0] : List ℕ) := by
  have hord : ordered_node netC9.pressure = [0, 1, 2] := by
    norm_num [netC9, ordered_node, sortAsc, insertAsc, pressure_pairs, pairLe, List.enum,
      List.enumFrom]
  refine ⟨?_, by simp [netC9], ?_, by simp⟩
  · rw [hord]
    have h1 : np_of netC9.edge_list [0, 1, 2] 2 = 0 ∧ nd_of netC9.edge_list [0, 1, 2] 2 = 0 := by
      norm_num [netC9, np_of, nd_of, parents_of, daughters_of, parent_edge_scan,
        edge_connected_enum, count_collapse, List.enum, List.enumFrom]
    rw [h1.1, h1.2]
    unfold boundary_handled
    decide
  · rw [hord]
    norm_num [netC9, runNodes, processNode, parents_of, daughters_of, parent_edge_scan,
      edge_connected_enum, count_collapse, initState, List.enum, List.enumFrom]

/-- Witness for the amended C9: applying it to the unrecognized boundary
node `2` of `netC9` shows the silent skip. -/
theorem c9_unrecognized_topology_amended_witness :
    ((2 : ℕ) ∈ netC9.boundary_vs) ∧
    (¬ boundary_handled (np_of netC9.edge_list (ordered_node netC9.pressure) 2)
        (nd_of netC9.edge_list (ordered_node netC9.pressure) 2)) ∧
    (∃ st', processNode netC9 (ordered_node netC9.pressure) (initState netC9) 2 = .ok st' ∧
      st'.hd = (initState netC9).hd ∧ st'.rbc = (initState netC9).rbc ∧
      st'.warn = (initState netC9).warn) := by
  have hb : (2 : ℕ) ∈ netC9.boundary_vs := by simp [netC9]
  have hun : ¬ boundary_handled (np_of netC9.edge_list (ordered_node netC9.pressure) 2)
      (nd_of netC9.edge_list (ordered_node netC9.pressure) 2) := by
    have hord : ordered_node netC9.pressure = [0, 1, 2] := by
      norm_num [netC9, ordered_node, sortAsc, insertAsc, pressure_pairs, pairLe, List.enum,
        List.enumFrom]
    rw [hord]
    have h1 : np_of netC9.edge_list [0, 1, 2] 2 = 0 ∧ nd_of netC9.edge_list [0, 1, 2] 2 = 0 := by
      norm_num [netC9, np_of, nd_of, parents_of, daughters_of, parent_edge_scan,
        edge_connected_enum, count_collapse, List.enum, List.enumFrom]
    rw [h1.1, h1.2]
    unfold boundary_handled
    decide
  exact ⟨hb, hun,
    (c9_unrecognized_topology_amended netC9 (ordered_node netC9.pressure) (initState netC9) 2).2
      hb hun⟩

/-- Witness for C8: on the two-node interior network the pass completes with
zero accumulated imbalance, and the end-of-pass check is non-fatal. -/
theorem c8_mass_balance_checker_witness :
    runNodes netC8 (ordered_node netC8.pressure) (ordered_node netC8.pressure)
      (initState netC8) = .ok ⟨[0.3], 0, none, none, [0]⟩ ∧
    (update_hd netC8 = .fatal 0 ↔ (0 : ℕ) ≠ 0) := by
  have hord : ordered_node netC8.pressure = [0, 1] := by
    norm_num [netC8, ordered_node, sortAsc, insertAsc, pressure_pairs, pairLe, List.enum,
      List.enumFrom]
  have hrun : runNodes netC8 (ordered_node netC8.pressure) (ordered_node netC8.pressure)
      (initState netC8) = .ok ⟨[0.3], 0, none, none, [0]⟩ := by
    rw [hord]
    norm_num [netC8, runNodes, processNode, parents_of, daughters_of, parent_edge_scan,
      edge_connected_enum, count_collapse, initState, List.enum, List.enumFrom]
  exact ⟨hrun, c8_mass_balance_checker.2 netC8 ⟨[0.3], 0, none, none, [0]⟩ hrun⟩

/-- Claim C2 (code bug): in `netC2`, node `3` is a boundary node with parent
edges `2, 3` and daughter edge `4` (its incident edges are exactly
`2, 3, 4`).  Its dispatch takes the boundary `(2, 1)` outflow-ghost branch,
which reads the stale `daughter_a` / `daughter_b` registers left by node `0`
and therefore writes the haematocrit results to edges `0` and `1` — edges
not incident to node `3` — while node `3`'s own daughter edge `4` keeps its
stale value `0.7`.  The single-step and whole-pass evaluations exhibit the
writes. -/
theorem c2_stale_daughter_write :
    edge_connected_enum netC2.edge_list 3 = [(2, (1, 3)), (3, (2, 3)), (4, (3, 4))] ∧
    (3 : ℕ) ∈ netC2.boundary_vs ∧
    processNode netC2 [0, 1, 2, 3, 4] ⟨[0.4, 0.4, 0.4, 0.4, 0.7], 0, some 0, some 1, [0]⟩ 3 =
      .ok ⟨[0, 0.8, 0.4, 0.4, 0.7], 0, some 0, some 1, [0]⟩ ∧
    ordered_node netC2.pressure = [0, 1, 2, 3, 4] ∧
    runNodes netC2 [0, 1, 2, 3, 4] [0, 1, 2, 3, 4] (initState netC2) =
      .ok ⟨[0, 0.8, 0.4, 0.4, 0.7], 0, some 0, some 1, [0]⟩ := by
  refine ⟨?_, by simp [netC2], ?_, ?_, ?_⟩
  · norm_num [netC2, edge_connected_enum, List.enum, List.enumFrom]
  · norm_num [netC2, processNode, parents_of, daughters_of, parent_edge_scan,
      edge_connected_enum, count_collapse, List.enum, List.enumFrom,
      hematocrit_1_2, hematocrit_2_2_aux, qRCS,
      get_erythrocyte_fraction, get_erythrocyte_fraction_post, hemat_clamp, hemat_guard,
      fractional_qRBC, non_dimentional_param, x_o_init, A_o_init, B_o_init]
  · norm_num [netC2, ordered_node, sortAsc, insertAsc, pressure_pairs, pairLe, List.enum,
      List.enumFrom]
  · norm_num [netC2, runNodes, processNode, parents_of, daughters_of, parent_edge_scan,
      edge_connected_enum, count_collapse, initState, List.enum, List.enumFrom,
      hematocrit_1_1, hematocrit_1_2, hematocrit_2_2_aux, qRCS,
      get_erythrocyte_fraction, get_erythrocyte_fraction_post, hemat_clamp, hemat_guard,
      fractional_qRBC, non_dimentional_param, x_o_init, A_o_init, B_o_init]
